import Mathlib

/-!
Verification of the slash-command template execution pipeline.

Python strings are modelled as Lean `String` at interface boundaries and as
`List Char` internally (ASCII character classes model the `re` classes `\d`,
`\w`, `\s` as used by the ASCII-only templates of this module).  Scanning
functions that advance by more than one character per step take an explicit
fuel argument that the public wrappers instantiate with the input length;
every step consumes at least one character, so the fuel never runs out.
-/

namespace SlashCmd

/-- Left brace character (written via its code point). -/
def lbrace : Char := Char.ofNat 123

/-- Right brace character (written via its code point). -/
def rbrace : Char := Char.ofNat 125

/-- Backtick character (written via its code point). -/
def bq : Char := Char.ofNat 96

/-- Python `str.isspace` / regex `\s` character set (ASCII). -/
def pyIsSpace (c : Char) : Bool :=
  c = ' ' || c = '\t' || c = '\n' || c = '\r' || c = '\x0b' || c = '\x0c'

/-- Python `str.lstrip()` on a character list. -/
def lstripWS (l : List Char) : List Char := l.dropWhile pyIsSpace

/-- Python `str.rstrip()` on a character list. -/
def rstripWS (l : List Char) : List Char := (l.reverse.dropWhile pyIsSpace).reverse

/-- Python `str.strip()` on a character list. -/
def pyStrip (l : List Char) : List Char := rstripWS (lstripWS l)

/-- Python `str.strip()` on a string. -/
def pyStripStr (s : String) : String := ⟨pyStrip s.data⟩

/-- Python `str.rstrip(chars)`: drop all trailing characters from `bad`. -/
def rstripChars (bad : List Char) (l : List Char) : List Char :=
  (l.reverse.dropWhile (fun c => bad.contains c)).reverse

/-- Regex `\w` (ASCII): letters, digits and underscore. -/
def isWordChar (c : Char) : Bool := c.isAlphanum || c = '_'

/-- Python `str.lower()` (ASCII). -/
def pyLower (s : String) : String := ⟨s.data.map Char.toLower⟩

/-- Helper for Python `str.split()`: accumulate the current token. -/
def splitWSAux : List Char → List Char → List (List Char)
  | [], acc => if acc.isEmpty then [] else [acc.reverse]
  | c :: cs, acc =>
    if pyIsSpace c then
      if acc.isEmpty then splitWSAux cs [] else acc.reverse :: splitWSAux cs []
    else splitWSAux cs (c :: acc)

/-- Python `str.split()` with no separator: split on whitespace runs,
discarding empty tokens. -/
def splitWS (l : List Char) : List (List Char) := splitWSAux l []

/-- Python `int(...)` on a string of decimal digits. -/
def digitsToNat (ds : List Char) : Nat :=
  ds.foldl (fun a c => 10 * a + (c.toNat - 48)) 0

/-- The shared `warnings if warnings else None` idiom: an empty warning list
becomes the absent value. -/
def warnOpt (ws : List String) : Option (List String) :=
  if ws.isEmpty then none else some ws

/- ## Permission matcher (`permissions.py`) -/

/-- A parsed granular tool permission (`GranularPermission` dataclass). -/
structure GranularPermission where
  tool : String
  pattern : Option String
deriving DecidableEq

/-- `GranularPermission.allows_command`: non-bash tools never match; no
pattern matches everything; otherwise the command (whitespace-stripped)
must start with the pattern after
`pattern.rstrip(":*").rstrip("*").rstrip(":")`. -/
def allows_command (p : GranularPermission) (command : String) : Bool :=
  if pyLower p.tool ≠ "bash" then false
  else
    match p.pattern with
    | none => true
    | some pat =>
      let pattern_base := rstripChars [':'] (rstripChars ['*'] (rstripChars [':', '*'] pat.data))
      pattern_base.isPrefixOf (pyStrip command.data)

/-- `is_bash_command_allowed`: filter the bash permissions, allow if any of
them allows the command, otherwise build a diagnostic. -/
def is_bash_command_allowed (command : String) (permissions : List GranularPermission) :
    Bool × Option String :=
  let bash_permissions := permissions.filter (fun p => p.tool == "bash")
  if bash_permissions.isEmpty then (false, some "bash not in allowed-tools")
  else if bash_permissions.any (fun p => allows_command p command) then (true, none)
  else
    let allowed_patterns := bash_permissions.filterMap
      (fun p => match p.pattern with
        | some s => if s ≠ "" then some s else none
        | none => none)
    if !allowed_patterns.isEmpty then
      (false, some ("Command does not match allowed patterns: " ++
        String.intercalate ", " (allowed_patterns.map (fun s => "\x27" ++ s ++ "\x27"))))
    else (false, some "No matching permission found")

/-- Rendering of the claim sentence for C2: strip one trailing `:*`, `*` or
`:` suffix from the pattern (this is the claim wording, to be compared with
the code, which strips every trailing `:` and `*`). -/
def claimStripSuffix (pat : List Char) : List Char :=
  if [':', '*'].isSuffixOf pat then pat.dropLast.dropLast
  else if ['*'].isSuffixOf pat then pat.dropLast
  else if [':'].isSuffixOf pat then pat.dropLast
  else pat

/-- Rendering of the claim sentence for C2: a bash permission with no
pattern matches everything, one with a pattern matches when the command
after trimming leading whitespace starts with `claimStripSuffix pattern`. -/
def claimMatches (p : GranularPermission) (command : String) : Bool :=
  match p.pattern with
  | none => true
  | some pat => (claimStripSuffix pat.data).isPrefixOf (lstripWS command.data)

/-- Rendering of the claim sentence for C2: allowed iff some bash permission
in the set matches. -/
def claimAllowed (command : String) (perms : List GranularPermission) : Bool :=
  perms.any (fun p => p.tool == "bash" && claimMatches p command)

/- ## Process runner (`TemplateProcessor._execute_bash`) -/

/-- Outcome of the external `subprocess.run` call: normal completion with an
exit code and captured streams, a timeout, or a launch failure. -/
inductive BashOutcome where
  | completed (returncode : Int) (stdout stderr : String)
  | timedOut
  | launchFailure (msg : String)
deriving DecidableEq

/-- The stdout/stderr merge of `_execute_bash`: append stderr on a new line
when both streams are non-empty. -/
def combineOutput (stdout stderr : String) : String :=
  if stderr ≠ "" then (if stdout ≠ "" then stdout ++ "\n" ++ stderr else stdout ++ stderr)
  else stdout

/-- `TemplateProcessor._execute_bash`, as a total function of the subprocess
outcome: it returns a string in every case and never raises. -/
def execute_bash (timeout : Nat) (o : BashOutcome) : String :=
  match o with
  | .completed rc out err =>
    let output := combineOutput out err
    let output := if rc ≠ 0 then "[Command exited with code " ++ toString rc ++ "]\n" ++ output
      else output
    pyStripStr output
  | .timedOut => "[Command timed out after " ++ toString timeout ++ " seconds]"
  | .launchFailure e => "[Command failed: " ++ e ++ "]"

/- ## Variable substitutor (`CommandParser.substitute_variables`) -/

/-- The characters of the literal `ARGUMENTS`. -/
def argumentsWord : List Char := ['A', 'R', 'G', 'U', 'M', 'E', 'N', 'T', 'S']

/-- The variable inside a fallback form: `$<digits>` or `$ARGUMENTS`. -/
inductive VarForm where
  | arguments
  | position (ds : List Char)
deriving DecidableEq

/-- Parse the group `(\$\d+|\$ARGUMENTS)` after its `$` sign (the digit
alternative is tried first, as in the regex alternation). -/
def parseVar (l : List Char) : Option (VarForm × List Char) :=
  let ds := l.takeWhile Char.isDigit
  if !ds.isEmpty then some (.position ds, l.drop ds.length)
  else if argumentsWord.isPrefixOf l then some (.arguments, l.drop 9)
  else none

/-- Try to match `VARIABLE_PATTERN` at the head of the input.  The regex
has no observable backtracking (each quantifier is followed by a character
its class excludes), so this deterministic parse is exact.  Returns the
variable, the default text, and the rest after the closing braces. -/
def tryFallback (l : List Char) : Option (VarForm × List Char × List Char) :=
  match l with
  | a :: b :: c :: rest =>
    if a = lbrace && b = lbrace && c = '$' then
      match parseVar rest with
      | some (v, r1) =>
        let ws1 := r1.takeWhile pyIsSpace
        if ws1.isEmpty then none
        else
          match r1.drop ws1.length with
          | 'o' :: 'r' :: r2 =>
            let ws2 := r2.takeWhile pyIsSpace
            if ws2.isEmpty then none
            else
              match r2.drop ws2.length with
              | q :: r3 =>
                if q = '"' then
                  let dflt := r3.takeWhile (fun d => d ≠ '"')
                  match r3.drop dflt.length with
                  | q2 :: r4 =>
                    if q2 = '"' then
                      match r4 with
                      | x :: y :: r5 =>
                        if x = rbrace && y = rbrace then some (v, dflt, r5) else none
                      | _ => none
                    else none
                  | [] => none
                else none
              | [] => none
          | _ => none
      | none => none
    else none
  | _ => none

/-- The `replace_with_fallback` callback: `$ARGUMENTS` yields the raw
argument string when non-empty, else the default; `$N` yields the N-th
token when `0 < N ≤ len(tokens)`, else the default.  (The callback's final
catch-all branch is unreachable: the regex group is always one of the two
forms.) -/
def fallbackRepl (args : List Char) (toks : List (List Char)) :
    VarForm → List Char → List Char
  | .arguments, dflt => if args.isEmpty then dflt else args
  | .position ds, dflt =>
    let pos := digitsToNat ds
    if 0 < pos ∧ pos ≤ toks.length then toks.getD (pos - 1) [] else dflt

/-- `re.sub` scan for the fallback pattern: try a match at every position,
emit replacements, and never rescan replacement text. -/
def fallbackGo (args : List Char) (toks : List (List Char)) : Nat → List Char → List Char
  | _, [] => []
  | 0, l => l
  | fuel + 1, c :: cs =>
    match tryFallback (c :: cs) with
    | some (v, dflt, rest) => fallbackRepl args toks v dflt ++ fallbackGo args toks fuel rest
    | none => c :: fallbackGo args toks fuel cs

/-- First substitution pass: `VARIABLE_PATTERN.sub(replace_with_fallback, template)`. -/
def fallbackPass (args l : List Char) : List Char :=
  fallbackGo args (splitWS args) l.length l

/-- Regex `\b` after `ARGUMENTS`: the next character, if any, is not a word
character. -/
def wordBoundary : List Char → Bool
  | [] => true
  | c :: _ => !isWordChar c

/-- `re.sub` scan for `SIMPLE_VARIABLE_PATTERN` with the `replace_simple`
callback: `$ARGUMENTS` yields the raw argument string, `$N` yields the N-th
token when in range and is left as written otherwise. -/
def simpleGo (args : List Char) (toks : List (List Char)) : Nat → List Char → List Char
  | _, [] => []
  | 0, l => l
  | fuel + 1, c :: cs =>
    if c = '$' then
      let ds := cs.takeWhile Char.isDigit
      if !ds.isEmpty then
        (let pos := digitsToNat ds
         if 0 < pos ∧ pos ≤ toks.length then toks.getD (pos - 1) [] else '$' :: ds) ++
          simpleGo args toks fuel (cs.drop ds.length)
      else if argumentsWord.isPrefixOf cs && wordBoundary (cs.drop 9) then
        args ++ simpleGo args toks fuel (cs.drop 9)
      else '$' :: simpleGo args toks fuel cs
    else c :: simpleGo args toks fuel cs

/-- Second substitution pass: `SIMPLE_VARIABLE_PATTERN.sub(replace_simple, result)`. -/
def simplePass (args l : List Char) : List Char :=
  simpleGo args (splitWS args) l.length l

/-- `CommandParser.substitute_variables`: the fallback pass, then the bare
pass, over the whitespace-split 1-indexed argument tokens. -/
def substitute_variables (template args : String) : String :=
  ⟨simplePass args.data (fallbackPass args.data template.data)⟩

/- ## Basic scanning lemmas -/

theorem takeWhile_all {p : Char → Bool} :
    ∀ {xs : List Char}, (∀ c ∈ xs, p c = true) → xs.takeWhile p = xs
  | [], _ => rfl
  | x :: xs, h => by
    have hx : p x = true := h x (List.mem_cons_self x xs)
    simp only [List.takeWhile_cons, hx]
    exact congrArg (x :: ·) (takeWhile_all fun c hc => h c (List.mem_cons_of_mem x hc))

theorem takeWhile_append_stop {p : Char → Bool} :
    ∀ {xs : List Char}, (∀ c ∈ xs, p c = true) → ∀ {y : Char}, p y = false →
      ∀ (ys : List Char), (xs ++ y :: ys).takeWhile p = xs
  | [], _, y, hy, ys => by simp [List.takeWhile_cons, hy]
  | x :: xs, h, y, hy, ys => by
    have hx : p x = true := h x (List.mem_cons_self x xs)
    simp only [List.cons_append, List.takeWhile_cons, hx]
    exact congrArg (x :: ·)
      (takeWhile_append_stop (fun c hc => h c (List.mem_cons_of_mem x hc)) hy ys)

/- ## Evaluation of the fallback form -/

/-- The template text `{{$ARGUMENTS or "<dflt>"}}`, built from characters. -/
def fallbackArgumentsForm (dflt : List Char) : List Char :=
  lbrace :: lbrace :: '$' ::
    (argumentsWord ++ ' ' :: 'o' :: 'r' :: ' ' :: '"' :: (dflt ++ '"' :: rbrace :: rbrace :: []))

/-- The template text `{{$<ds> or "<dflt>"}}`, built from characters. -/
def fallbackPositionForm (ds dflt : List Char) : List Char :=
  lbrace :: lbrace :: '$' ::
    (ds ++ ' ' :: 'o' :: 'r' :: ' ' :: '"' :: (dflt ++ '"' :: rbrace :: rbrace :: []))

theorem parseVar_argumentsWord (tail : List Char) :
    parseVar (argumentsWord ++ tail) = some (.arguments, tail) := by
  unfold parseVar
  simp only [argumentsWord, List.cons_append, List.nil_append]
  simp [List.takeWhile_cons, List.isPrefixOf, List.drop]

theorem parseVar_digits {ds : List Char} (hne : ds ≠ [])
    (hd : ∀ c ∈ ds, c.isDigit = true) {y : Char} (hy : y.isDigit = false) (tail : List Char) :
    parseVar (ds ++ y :: tail) = some (.position ds, y :: tail) := by
  unfold parseVar
  rw [takeWhile_append_stop hd hy]
  simp [List.isEmpty_iff, hne, List.drop_left]

theorem tryFallback_form (v : VarForm) (vchars dflt post : List Char)
    (hv : parseVar (vchars ++ ' ' :: 'o' :: 'r' :: ' ' :: '"' :: (dflt ++ '"' :: rbrace :: rbrace :: post))
          = some (v, ' ' :: 'o' :: 'r' :: ' ' :: '"' :: (dflt ++ '"' :: rbrace :: rbrace :: post)))
    (hq : '"' ∉ dflt) :
    tryFallback (lbrace :: lbrace :: '$' ::
        (vchars ++ ' ' :: 'o' :: 'r' :: ' ' :: '"' :: (dflt ++ '"' :: rbrace :: rbrace :: post)))
      = some (v, dflt, post) := by
  have hdflt : ∀ c ∈ dflt, (decide (c ≠ '"')) = true := by
    intro c hc
    simp only [decide_eq_true_eq]
    intro h
    exact hq (h ▸ hc)
  have htw : (dflt ++ '"' :: rbrace :: rbrace :: post).takeWhile (fun d => decide (d ≠ '"')) = dflt :=
    takeWhile_append_stop hdflt (by decide) _
  have hdr : (dflt ++ '"' :: rbrace :: rbrace :: post).drop dflt.length
      = '"' :: rbrace :: rbrace :: post := List.drop_left dflt _
  unfold tryFallback
  simp only [hv]
  simp only [List.takeWhile_cons, List.drop]
  norm_num [pyIsSpace]
  simp only [ne_eq, decide_not] at htw
  rw [htw, hdr]
  simp
theorem fallbackPass_argumentsForm {args dflt : List Char} (hq : '"' ∉ dflt) :
    fallbackPass args (fallbackArgumentsForm dflt)
      = (if args.isEmpty then dflt else args) := by
  have hm := tryFallback_form .arguments argumentsWord dflt [] (parseVar_argumentsWord _) hq
  unfold fallbackPass fallbackArgumentsForm
  simp only [List.length_cons]
  rw [fallbackGo]
  rw [hm]
  simp [fallbackGo, fallbackRepl]

theorem fallbackPass_positionForm {args ds dflt : List Char} (hq : '"' ∉ dflt)
    (hne : ds ≠ []) (hd : ∀ c ∈ ds, c.isDigit = true) :
    fallbackPass args (fallbackPositionForm ds dflt)
      = (if 0 < digitsToNat ds ∧ digitsToNat ds ≤ (splitWS args).length
         then (splitWS args).getD (digitsToNat ds - 1) []
         else dflt) := by
  have hm := tryFallback_form (.position ds) ds dflt []
    (parseVar_digits hne hd (by decide) _) hq
  unfold fallbackPass fallbackPositionForm
  simp only [List.length_cons]
  rw [fallbackGo]
  rw [hm]
  simp [fallbackGo, fallbackRepl]

theorem simplePass_arguments (args : List Char) :
    simplePass args ('$' :: argumentsWord) = args := by
  unfold simplePass
  simp only [List.length_cons]
  rw [simpleGo]
  simp [argumentsWord, List.takeWhile_cons, wordBoundary, List.drop, simpleGo]

theorem simplePass_position {args ds : List Char} (hne : ds ≠ [])
    (hd : ∀ c ∈ ds, c.isDigit = true) :
    simplePass args ('$' :: ds)
      = (if 0 < digitsToNat ds ∧ digitsToNat ds ≤ (splitWS args).length
         then (splitWS args).getD (digitsToNat ds - 1) []
         else '$' :: ds) := by
  unfold simplePass
  simp only [List.length_cons]
  rw [simpleGo]
  rw [takeWhile_all hd]
  simp [List.isEmpty_iff, hne, List.drop_length, simpleGo]

/-- Claim C1: variable substitution runs the fallback pass first and the
bare pass second; a `\x7b\x7b$ARGUMENTS or "default"\x7d\x7d` form yields
the raw argument string when non-empty and the quoted default otherwise; a
`\x7b\x7b$N or "default"\x7d\x7d` form yields the N-th whitespace-split
token when `1 ≤ N ≤ number of tokens` and the default otherwise; a bare
`$ARGUMENTS` yields the raw argument string, and a bare `$N` yields the
N-th token when in range and is left exactly as written when out of
range. -/
theorem C1_variable_substitution (args dflt ds : List Char) :
    ('"' ∉ dflt →
      fallbackPass args (fallbackArgumentsForm dflt)
        = (if args.isEmpty then dflt else args))
    ∧ ('"' ∉ dflt → ds ≠ [] → (∀ c ∈ ds, c.isDigit = true) →
      fallbackPass args (fallbackPositionForm ds dflt)
        = (if 0 < digitsToNat ds ∧ digitsToNat ds ≤ (splitWS args).length
           then (splitWS args).getD (digitsToNat ds - 1) []
           else dflt))
    ∧ simplePass args ('$' :: argumentsWord) = args
    ∧ (ds ≠ [] → (∀ c ∈ ds, c.isDigit = true) →
      simplePass args ('$' :: ds)
        = (if 0 < digitsToNat ds ∧ digitsToNat ds ≤ (splitWS args).length
           then (splitWS args).getD (digitsToNat ds - 1) []
           else '$' :: ds))
    ∧ (∀ template arguments : String,
        substitute_variables template arguments
          = ⟨simplePass arguments.data (fallbackPass arguments.data template.data)⟩) :=
  ⟨fun hq => fallbackPass_argumentsForm hq,
   fun hq hne hd => fallbackPass_positionForm hq hne hd,
   simplePass_arguments args,
   fun hne hd => simplePass_position hne hd,
   fun _ _ => rfl⟩

/-- Witness for C1 at concrete inputs: arguments `"one two"`, default
`"dft"`, position `2`. -/
theorem C1_variable_substitution_witness :
    ('"' ∉ "dft".data
      → fallbackPass "one two".data (fallbackArgumentsForm "dft".data)
          = (if ("one two".data).isEmpty then "dft".data else "one two".data))
    ∧ (('2' :: []) ≠ []
      → (∀ c ∈ ('2' :: []), c.isDigit = true)
      → simplePass "one two".data ('$' :: '2' :: [])
          = (if 0 < digitsToNat ('2' :: []) ∧
                 digitsToNat ('2' :: []) ≤ (splitWS "one two".data).length
             then (splitWS "one two".data).getD (digitsToNat ('2' :: []) - 1) []
             else '$' :: '2' :: []))
    ∧ fallbackPass "one two".data (fallbackArgumentsForm "dft".data) = "one two".data
    ∧ simplePass "one two".data ('$' :: '2' :: []) = "two".data := by
  refine ⟨(C1_variable_substitution "one two".data "dft".data ('2' :: [])).1,
    (C1_variable_substitution "one two".data "dft".data ('2' :: [])).2.2.2.1, ?_, ?_⟩
  · rw [(C1_variable_substitution "one two".data "dft".data ('2' :: [])).1 (by decide)]
    decide
  · rw [(C1_variable_substitution "one two".data "dft".data ('2' :: [])).2.2.2.1
      (by decide) (by decide)]
    decide

/- ## Claim C2 -/

/-- Counterexample to C2 as stated: with the single permission
`Bash(git:**)` the code allows the command `git status` (the code strips
every trailing `:` and `*`, giving the prefix `git`), while the claim
strips one trailing `*` suffix, giving the prefix `git:*`, and rejects. -/
theorem C2_counterexample :
    (is_bash_command_allowed "git status"
        [{ tool := "bash", pattern := some "git:**" }]).1 = true
    ∧ claimAllowed "git status" [{ tool := "bash", pattern := some "git:**" }] = false := by
  constructor
  · decide
  · decide

theorem dropWhile_dropWhile {p q : Char → Bool} (himp : ∀ c, q c = true → p c = true) :
    ∀ l : List Char, (l.dropWhile p).dropWhile q = l.dropWhile p
  | [] => rfl
  | c :: cs => by
    rw [List.dropWhile_cons]
    cases hpc : p c with
    | true => simp only [if_true]; exact dropWhile_dropWhile himp cs
    | false =>
      have hqc : q c = false := by
        cases hq : q c with
        | false => rfl
        | true => exact absurd (himp c hq) (by simp [hpc])
      simp [List.dropWhile_cons, hqc]

theorem rstripChars_subset_noop (bad bad2 l : List Char)
    (h : ∀ c, bad2.contains c = true → bad.contains c = true) :
    rstripChars bad2 (rstripChars bad l) = rstripChars bad l := by
  unfold rstripChars
  rw [List.reverse_reverse, dropWhile_dropWhile h l.reverse]

theorem rstrip_chain_eq (pat : List Char) :
    rstripChars [':'] (rstripChars ['*'] (rstripChars [':', '*'] pat))
      = rstripChars [':', '*'] pat := by
  rw [rstripChars_subset_noop [':', '*'] ['*'] pat
    (by intro c h2; simp at h2; subst h2; decide)]
  rw [rstripChars_subset_noop [':', '*'] [':'] pat
    (by intro c h2; simp at h2; subst h2; decide)]

theorem is_bash_allowed_fst (command : String) (perms : List GranularPermission) :
    (is_bash_command_allowed command perms).1
      = (perms.filter (fun p => p.tool == "bash")).any (fun p => allows_command p command) := by
  unfold is_bash_command_allowed
  by_cases hempty : (perms.filter (fun p => p.tool == "bash")).isEmpty
  · rw [List.isEmpty_iff] at hempty
    simp [hempty]
  · simp only [hempty, if_false, Bool.false_eq_true]
    by_cases hany : (perms.filter (fun p => p.tool == "bash")).any
        (fun p => allows_command p command)
    · simp [hany]
    · rw [if_neg hany]
      rw [Bool.not_eq_true] at hany
      split <;> exact hany.symm

theorem allows_command_bash (command : String) (p : GranularPermission) (hp : p.tool = "bash") :
    (allows_command p command = true
      ↔ (p.pattern = none
         ∨ ∃ pat, p.pattern = some pat
             ∧ (rstripChars [':', '*'] pat.data).isPrefixOf (pyStrip command.data) = true)) := by
  unfold allows_command
  rw [hp]
  have hlow : pyLower "bash" = "bash" := by decide
  cases hpat : p.pattern with
  | none => simp [hlow]
  | some pat => simp [hlow, rstrip_chain_eq]
/-- Claim C2, amended: a command is allowed iff some permission in the set
has tool `bash` and either carries no pattern or the command — after
trimming leading and trailing whitespace — starts with the prefix obtained
by removing every trailing `:` and `*` character from the pattern; the
pattern `git add:*` allows `git add .` and `git add -A` and rejects
`git commit -m \x27x\x27`. -/
theorem C2_allowed_iff_amended (perms : List GranularPermission) (command : String) :
    ((is_bash_command_allowed command perms).1 = true
      ↔ ∃ p ∈ perms, p.tool = "bash"
          ∧ (p.pattern = none
             ∨ ∃ pat, p.pattern = some pat
                 ∧ (rstripChars [':', '*'] pat.data).isPrefixOf (pyStrip command.data) = true))
    ∧ (is_bash_command_allowed "git add ."
        [{ tool := "bash", pattern := some "git add:*" }]).1 = true
    ∧ (is_bash_command_allowed "git add -A"
        [{ tool := "bash", pattern := some "git add:*" }]).1 = true
    ∧ (is_bash_command_allowed "git commit -m \x27x\x27"
        [{ tool := "bash", pattern := some "git add:*" }]).1 = false := by
  refine ⟨?_, by decide, by decide, by decide⟩
  rw [is_bash_allowed_fst]
  simp only [List.any_eq_true, List.mem_filter, beq_iff_eq]
  constructor
  · rintro ⟨p, ⟨hm, hb⟩, hall⟩
    exact ⟨p, hm, hb, (allows_command_bash command p hb).mp hall⟩
  · rintro ⟨p, hm, hb, hcond⟩
    exact ⟨p, ⟨hm, hb⟩, (allows_command_bash command p hb).mpr hcond⟩

/- ## Template processor (`TemplateProcessor.process`) -/

/-- Python `str.replace(old, repl, 1)`: replace the first occurrence. -/
def replaceFirst : List Char → List Char → List Char → List Char
  | [], _, _ => []
  | c :: cs, old, repl =>
    if old.isPrefixOf (c :: cs) then repl ++ (c :: cs).drop old.length
    else c :: replaceFirst cs old repl

/-- Split at the first occurrence of `marker`: returns the text before it
and the text after it (the non-greedy `(.*?)` of `BASH_BLOCK_PATTERN`). -/
def splitAtFirst (marker : List Char) : List Char → Option (List Char × List Char)
  | [] => if marker.isEmpty then some ([], []) else none
  | c :: cs =>
    if marker.isPrefixOf (c :: cs) then some ([], (c :: cs).drop marker.length)
    else
      match splitAtFirst marker cs with
      | some (pre, post) => some (c :: pre, post)
      | none => none

/-- The opening of a bash block: `!` followed by three backticks and a
newline. -/
def bangFence : List Char := '!' :: bq :: bq :: bq :: '\n' :: []

/-- The closing of a bash block: a newline followed by three backticks. -/
def nlFence : List Char := '\n' :: bq :: bq :: bq :: []

/-- `BASH_BLOCK_PATTERN.finditer`: scan for `!`-fenced blocks, returning
(whole match, body) pairs; an opening fence with no closing fence does not
match and scanning resumes at the next character. -/
def findBlocksGo : Nat → List Char → List (List Char × List Char)
  | _, [] => []
  | 0, _ => []
  | fuel + 1, c :: cs =>
    if bangFence.isPrefixOf (c :: cs) then
      match splitAtFirst nlFence ((c :: cs).drop 5) with
      | some (body, rest) =>
        (bangFence ++ body ++ nlFence, body) :: findBlocksGo fuel rest
      | none => findBlocksGo fuel cs
    else findBlocksGo fuel cs

/-- All matches of `BASH_BLOCK_PATTERN` in the template. -/
def findBlocks (l : List Char) : List (List Char × List Char) := findBlocksGo l.length l

/-- `BASH_INLINE_PATTERN.finditer`: scan for `!` + backtick + non-empty
backtick-free body + backtick, returning (whole match, body) pairs. -/
def findInlinesGo : Nat → List Char → List (List Char × List Char)
  | _, [] => []
  | 0, _ => []
  | fuel + 1, c :: cs =>
    if c = '!' then
      match cs with
      | d :: rest =>
        if d = bq then
          let body := rest.takeWhile (fun x => x ≠ bq)
          if body.isEmpty then findInlinesGo fuel cs
          else
            match rest.drop body.length with
            | e :: rest2 =>
              if e = bq then
                ('!' :: bq :: (body ++ [bq]), body) :: findInlinesGo fuel rest2
              else findInlinesGo fuel cs
            | [] => findInlinesGo fuel cs
        else findInlinesGo fuel cs
      | [] => []
    else findInlinesGo fuel cs

/-- All matches of `BASH_INLINE_PATTERN` in the template. -/
def findInlines (l : List Char) : List (List Char × List Char) := findInlinesGo l.length l

/-- `TemplateProcessor._process_bash_blocks`: run each block body (stripped)
through the bash runner and replace the first occurrence of the matched
text with the output; the count is the number of matches. -/
def process_bash_blocks (bash : String → String) (template : List Char) : List Char × Nat :=
  let ms := findBlocks template
  (ms.foldl (fun acc m => replaceFirst acc m.1 (bash (pyStripStr ⟨m.2⟩)).data) template,
   ms.length)

/-- `TemplateProcessor._process_bash_inline`: same replacement scheme for
inline commands. -/
def process_bash_inline (bash : String → String) (template : List Char) : List Char × Nat :=
  let ms := findInlines template
  (ms.foldl (fun acc m => replaceFirst acc m.1 (bash (pyStripStr ⟨m.2⟩)).data) template,
   ms.length)

/-- The character class of `FILE_REF_PATTERN`: word characters, dot,
slash and hyphen. -/
def fileRefChar (c : Char) : Bool := isWordChar c || c = '.' || c = '/' || c = '-'

instance {α β : Type} [DecidableEq α] [DecidableEq β] : DecidableEq (Except α β) := fun x y =>
  match x, y with
  | .ok a, .ok b =>
    if h : a = b then .isTrue (by rw [h]) else .isFalse (by simp [h])
  | .error a, .error b =>
    if h : a = b then .isTrue (by rw [h]) else .isFalse (by simp [h])
  | .ok _, .error _ => .isFalse (by simp)
  | .error _, .ok _ => .isFalse (by simp)

/-- Outcome of the filesystem operations on one referenced path: whether
`resolve()` succeeded, whether the resolved path starts with the resolved
working directory, whether the path exists, and the result of reading it. -/
structure FileStatus where
  resolveOk : Bool
  insideWorking : Bool
  fileExists : Bool
  readResult : Except String String
deriving DecidableEq

/-- Does the token use the absolute-path form (`startswith("/")`)? -/
def isAbsTok : List Char → Bool
  | '/' :: _ => true
  | _ => false

/-- The body of the `replace_file_ref` callback: the containment check (with
its absolute-path bypass) runs first, then existence, then the read; every
failure leaves the token unchanged and produces one warning. -/
def replaceFileRef (fs : String → FileStatus) (tok : List Char) : List Char × Nat × List String :=
  let t : String := ⟨tok⟩
  let st := fs t
  if st.resolveOk && !st.insideWorking && !isAbsTok tok then
    ('@' :: tok, 0, ["File reference @" ++ t ++ " outside working directory"])
  else if st.fileExists then
    match st.readResult with
    | .ok content =>
      (bq :: bq :: bq :: '\n' :: '#' :: ' ' :: (tok ++ '\n' :: (content.data ++ nlFence)), 1, [])
    | .error e => ('@' :: tok, 0, ["Failed to read @" ++ t ++ ": " ++ e])
  else ('@' :: tok, 0, ["File not found: @" ++ t])

/-- `FILE_REF_PATTERN.sub(replace_file_ref, template)`: left-to-right scan,
replacement text is not rescanned, warnings and the count accumulate in
match order. -/
def processFileRefsGo (fs : String → FileStatus) : Nat → List Char → List Char × Nat × List String
  | _, [] => ([], 0, [])
  | 0, l => (l, 0, [])
  | fuel + 1, c :: cs =>
    if c = '@' then
      let tok := cs.takeWhile fileRefChar
      if tok.isEmpty then
        let r := processFileRefsGo fs fuel cs
        ('@' :: r.1, r.2.1, r.2.2)
      else
        let rep := replaceFileRef fs tok
        let r := processFileRefsGo fs fuel (cs.drop tok.length)
        (rep.1 ++ r.1, rep.2.1 + r.2.1, rep.2.2 ++ r.2.2)
    else
      let r := processFileRefsGo fs fuel cs
      (c :: r.1, r.2.1, r.2.2)

/-- `TemplateProcessor._process_file_refs`. -/
def process_file_refs (fs : String → FileStatus) (l : List Char) : List Char × Nat × List String :=
  processFileRefsGo fs l.length l

/-- `FILE_REF_PATTERN.search`: is there any `@` followed by at least one
path character? -/
def hasFileRef : List Char → Bool
  | [] => false
  | c :: cs => (c = '@' && !(cs.takeWhile fileRefChar).isEmpty) || hasFileRef cs

/-- Result of one template-processing pass (`ProcessedTemplate` dataclass). -/
structure ProcessedTemplate where
  content : String
  bash_commands_executed : Nat
  files_included : Nat
  warnings : Option (List String)
deriving DecidableEq

/-- Warning emitted when a template contains a bash block but bash is not
granted. -/
def blockDeniedWarning : String :=
  "Template contains bash blocks but \x27bash\x27 not in allowed-tools. Add \x27allowed-tools: [bash]\x27 to frontmatter to enable execution."

/-- Warning emitted when a template contains inline bash but bash is not
granted. -/
def inlineDeniedWarning : String :=
  "Template contains inline bash (!`) but \x27bash\x27 not in allowed-tools. Add \x27allowed-tools: [bash]\x27 to frontmatter to enable execution."

/-- `TemplateProcessor.process`: bash blocks, then inline bash, then file
references, each stage entered only when its trigger pattern occurs; bash
stages run only when `"bash"` is literally among the allowed tools and
otherwise emit a warning; warnings collect in stage order and an empty list
becomes the absent value. -/
def process (bash : String → String) (fs : String → FileStatus) (template : List Char)
    (allowed_tools : Option (List String)) (include_files : Bool) : ProcessedTemplate :=
  let bash_allowed := match allowed_tools with
    | none => false
    | some ts => ts.contains "bash"
  let s1 : List Char × Nat × List String :=
    if (findBlocks template).isEmpty then (template, 0, [])
    else if bash_allowed then
      let r := process_bash_blocks bash template
      (r.1, r.2, [])
    else (template, 0, [blockDeniedWarning])
  let s2 : List Char × Nat × List String :=
    if (findInlines s1.1).isEmpty then (s1.1, 0, [])
    else if bash_allowed then
      let r := process_bash_inline bash s1.1
      (r.1, r.2, [])
    else (s1.1, 0, [inlineDeniedWarning])
  let s3 : List Char × Nat × List String :=
    if include_files && hasFileRef s2.1 then process_file_refs fs s2.1
    else (s2.1, 0, [])
  { content := ⟨s3.1⟩,
    bash_commands_executed := s1.2.1 + s2.2.1,
    files_included := s3.2.1,
    warnings := warnOpt (s1.2.2 ++ s2.2.2 ++ s3.2.2) }

/-- Claim C4: executing one external command never raises; each outcome is
mapped to a string: combined output on success, an exit-code prefix on
non-zero exit, a fixed timeout message, and a fixed failure message. -/
theorem C4_process_runner (rc : Int) (out err msg : String) (T : Nat) :
    execute_bash T (.completed rc out err)
      = pyStripStr ((if rc ≠ 0 then "[Command exited with code " ++ toString rc ++ "]\n" else "")
          ++ combineOutput out err)
    ∧ execute_bash T .timedOut = "[Command timed out after " ++ toString T ++ " seconds]"
    ∧ execute_bash T (.launchFailure msg) = "[Command failed: " ++ msg ++ "]" := by
  refine ⟨?_, rfl, rfl⟩
  unfold execute_bash
  by_cases h : rc = 0
  · simp [h]
  · simp [h]

theorem process_bash_blocks_no_match {bash : String → String} {t : List Char}
    (h : (findBlocks t).isEmpty) : process_bash_blocks bash t = (t, 0) := by
  unfold process_bash_blocks
  rw [List.isEmpty_iff] at h
  simp [h]

theorem process_bash_inline_no_match {bash : String → String} {t : List Char}
    (h : (findInlines t).isEmpty) : process_bash_inline bash t = (t, 0) := by
  unfold process_bash_inline
  rw [List.isEmpty_iff] at h
  simp [h]

/-- The boolean bash gate of `TemplateProcessor.process`. -/
def bashGate (tools : Option (List String)) : Bool :=
  match tools with
  | none => false
  | some ts => ts.contains "bash"

theorem process_denied (bash : String → String) (fs : String → FileStatus)
    (t : List Char) (tools : Option (List String)) (hg : bashGate tools = false) :
    process bash fs t tools false
      = { content := ⟨t⟩, bash_commands_executed := 0, files_included := 0,
          warnings := warnOpt
            ((if (findBlocks t).isEmpty then [] else [blockDeniedWarning])
              ++ (if (findInlines t).isEmpty then [] else [inlineDeniedWarning])) } := by
  unfold process
  unfold bashGate at hg
  rw [hg]
  by_cases hb : (findBlocks t).isEmpty
  · by_cases hi : (findInlines t).isEmpty
    · simp [hb, hi]
    · simp [hb, hi]
  · by_cases hi : (findInlines t).isEmpty
    · simp [hb, hi]
    · simp [hb, hi]

theorem process_granted (bash : String → String) (fs : String → FileStatus)
    (t : List Char) (tools : Option (List String)) (hg : bashGate tools = true) :
    process bash fs t tools false
      = { content := ⟨(process_bash_inline bash (process_bash_blocks bash t).1).1⟩,
          bash_commands_executed :=
            (process_bash_blocks bash t).2
              + (process_bash_inline bash (process_bash_blocks bash t).1).2,
          files_included := 0,
          warnings := none } := by
  unfold process
  unfold bashGate at hg
  rw [hg]
  by_cases hb : (findBlocks t).isEmpty
  · rw [process_bash_blocks_no_match hb]
    by_cases hi : (findInlines t).isEmpty
    · rw [process_bash_inline_no_match hi]
      simp [hb, hi, warnOpt]
    · simp [hb, hi, warnOpt]
  · by_cases hi : (findInlines (process_bash_blocks bash t).1).isEmpty
    · rw [process_bash_inline_no_match hi]
      simp [hb, hi, warnOpt]
    · simp [hb, hi, warnOpt]
/-- A concrete bash oracle for examples: `echo hi` produces `HI`. -/
def exampleBash : String → String := fun c => if c = "echo hi" then "HI" else ""

/-- A concrete filesystem oracle for examples: nothing exists. -/
def exampleFs : String → FileStatus := fun _ => ⟨true, true, false, .error ""⟩

/-- Claim C5: when `"bash"` appears literally among the granted tool names,
bash markers are replaced by the runner output and counted; otherwise the
template is left untouched, the counter stays zero, and a grant-bash
warning is emitted; the gate ignores permission patterns (a
`Bash(git add:*)` spec does not open it). -/
theorem C5_bash_gate (bash : String → String) (fs : String → FileStatus)
    (t : List Char) (tools : Option (List String)) :
    (bashGate tools = false → (¬(findBlocks t).isEmpty ∨ ¬(findInlines t).isEmpty) →
      (process bash fs t tools false).content = ⟨t⟩
      ∧ (process bash fs t tools false).bash_commands_executed = 0
      ∧ (process bash fs t tools false).warnings ≠ none
      ∧ (¬(findBlocks t).isEmpty →
          blockDeniedWarning ∈ ((process bash fs t tools false).warnings.getD []))
      ∧ (¬(findInlines t).isEmpty →
          inlineDeniedWarning ∈ ((process bash fs t tools false).warnings.getD [])))
    ∧ (bashGate tools = true →
      process bash fs t tools false
        = { content := ⟨(process_bash_inline bash (process_bash_blocks bash t).1).1⟩,
            bash_commands_executed :=
              (process_bash_blocks bash t).2
                + (process_bash_inline bash (process_bash_blocks bash t).1).2,
            files_included := 0,
            warnings := none })
    ∧ process exampleBash exampleFs "run !`echo hi` now".data (some ["bash"]) false
        = { content := "run HI now", bash_commands_executed := 1, files_included := 0,
            warnings := none }
    ∧ (process exampleBash exampleFs "run !`echo hi` now".data
        (some ["Bash(git add:*)"]) false).bash_commands_executed = 0
    ∧ bashGate (some ["Bash(git add:*)"]) = false := by
  refine ⟨?_, process_granted bash fs t tools, by decide, by decide, by decide⟩
  intro hg hmark
  rw [process_denied bash fs t tools hg]
  by_cases hb : (findBlocks t).isEmpty
  · by_cases hi : (findInlines t).isEmpty
    · exact absurd hb (by tauto)
    · simp [hb, hi, warnOpt]
  · by_cases hi : (findInlines t).isEmpty
    · simp [hb, hi, warnOpt]
    · simp [hb, hi, warnOpt]

/-- Witness for C5 at a concrete denied input. -/
theorem C5_bash_gate_witness :
    bashGate none = false
    ∧ (¬(findBlocks "run !`echo hi` now".data).isEmpty
        ∨ ¬(findInlines "run !`echo hi` now".data).isEmpty)
    ∧ (process exampleBash exampleFs "run !`echo hi` now".data none false).content
        = ("run !`echo hi` now" : String)
    ∧ (process exampleBash exampleFs "run !`echo hi` now".data none false).warnings ≠ none := by
  have h := (C5_bash_gate exampleBash exampleFs "run !`echo hi` now".data none).1
    (by decide) (by right; decide)
  exact ⟨by decide, by right; decide, h.1, h.2.2.1⟩
/-- Claim C6: file-reference faults never raise and always leave the token
unchanged with one warning — outside-working-directory (checked only for
non-absolute tokens), file-not-found, and read-failure; absolute tokens
bypass the containment check entirely; a successful read wraps the content
in a fenced block annotated with the path and counts one inclusion. -/
theorem C6_file_refs (fs : String → FileStatus) (tok : List Char) :
    (((fs ⟨tok⟩).resolveOk && !(fs ⟨tok⟩).insideWorking && !isAbsTok tok) = true →
      replaceFileRef fs tok
        = ('@' :: tok, 0,
            ["File reference @" ++ (⟨tok⟩ : String) ++ " outside working directory"]))
    ∧ (((fs ⟨tok⟩).resolveOk && !(fs ⟨tok⟩).insideWorking && !isAbsTok tok) = false →
        (fs ⟨tok⟩).fileExists = false →
      replaceFileRef fs tok = ('@' :: tok, 0, ["File not found: @" ++ (⟨tok⟩ : String)]))
    ∧ (((fs ⟨tok⟩).resolveOk && !(fs ⟨tok⟩).insideWorking && !isAbsTok tok) = false →
        (fs ⟨tok⟩).fileExists = true → ∀ e, (fs ⟨tok⟩).readResult = .error e →
      replaceFileRef fs tok
        = ('@' :: tok, 0, ["Failed to read @" ++ (⟨tok⟩ : String) ++ ": " ++ e]))
    ∧ (((fs ⟨tok⟩).resolveOk && !(fs ⟨tok⟩).insideWorking && !isAbsTok tok) = false →
        (fs ⟨tok⟩).fileExists = true → ∀ content, (fs ⟨tok⟩).readResult = .ok content →
      replaceFileRef fs tok
        = (bq :: bq :: bq :: '\n' :: '#' :: ' ' :: (tok ++ '\n' :: (content.data ++ nlFence)),
           1, []))
    ∧ (isAbsTok tok = true → ∀ fs2 : String → FileStatus,
        (fs2 ⟨tok⟩).fileExists = (fs ⟨tok⟩).fileExists →
        (fs2 ⟨tok⟩).readResult = (fs ⟨tok⟩).readResult →
        replaceFileRef fs2 tok = replaceFileRef fs tok)
    ∧ process exampleBash exampleFs "@missing.txt".data none true
        = { content := "@missing.txt", bash_commands_executed := 0, files_included := 0,
            warnings := some ["File not found: @missing.txt"] } := by
  refine ⟨?_, ?_, ?_, ?_, ?_, by decide⟩
  · intro hout
    simp [replaceFileRef, hout]
  · intro hout hex
    simp [replaceFileRef, hout, hex]
  · intro hout hex e herr
    simp [replaceFileRef, hout, hex, herr]
  · intro hout hex content hok
    simp [replaceFileRef, hout, hex, hok]
  · intro habs fs2 hex hread
    simp [replaceFileRef, habs, hex, hread]
/-- Witness for C6 at a concrete missing file. -/
theorem C6_file_refs_witness :
    ((exampleFs "missing.txt").resolveOk && !(exampleFs "missing.txt").insideWorking
        && !isAbsTok "missing.txt".data) = false
    ∧ (exampleFs "missing.txt").fileExists = false
    ∧ replaceFileRef exampleFs "missing.txt".data
        = ('@' :: "missing.txt".data, 0, ["File not found: @missing.txt"]) := by
  refine ⟨by decide, by decide, ?_⟩
  have h := (C6_file_refs exampleFs "missing.txt".data).2.1 (by decide) (by decide)
  simpa using h

/- ## Budgeter (`CommandExecutor._apply_char_budget`) -/

/-- The fixed truncation marker (length 42). -/
def TRUNCATION_MSG : List Char := "\n\n[...truncated due to character limit...]".data

/-- Python `str.rfind`: the largest index at which `pat` occurs in `l`,
if any. -/
def pyRfind (l pat : List Char) : Option Nat :=
  ((List.range (l.length + 1)).filter (fun i => pat.isPrefixOf (l.drop i))).getLast?

/-- The break-point loop: try each separator in priority order and accept
the first whose last occurrence keeps more than 70 percent of the budget
(the Python guard `last_sep > available * 0.7`, stated over exact
rationals as `10 * last_sep > 7 * available`); otherwise keep the hard
cut. -/
def trySeps (truncated : List Char) (available : Nat) : List (List Char) → List Char
  | [] => truncated
  | sep :: rest =>
    match pyRfind truncated sep with
    | some last =>
      if 10 * last > 7 * available then truncated.take (last + sep.length)
      else trySeps truncated available rest
    | none => trySeps truncated available rest

/-- The four separators, in priority order: paragraph break, line break,
sentence end, word boundary. -/
def budgetSeps : List (List Char) :=
  ['\n', '\n'] :: ['\n'] :: ['.', ' '] :: [' '] :: []

/-- `CommandExecutor._apply_char_budget`: reserve space for the truncation
marker (if no space is left, hard-cut to `max_chars` with no marker), cut
the prefix at a break point, strip trailing whitespace, and append the
marker. -/
def apply_char_budget (content : List Char) (max_chars : Nat) : List Char :=
  if content.length ≤ max_chars then content
  else if max_chars ≤ TRUNCATION_MSG.length then content.take max_chars
  else
    let available := max_chars - TRUNCATION_MSG.length
    let truncated := content.take available
    rstripWS (trySeps truncated available budgetSeps) ++ TRUNCATION_MSG

/-- Step 6 of `execute_full`: truncate when a non-zero `max_chars` is set
and the content exceeds it, recording a warning with both lengths. -/
def budgetStep (content : List Char) (mc : Option Nat) : List Char × List String :=
  match mc with
  | some m =>
    if m ≠ 0 ∧ m < content.length then
      let c2 := apply_char_budget content m
      (c2, ["Content truncated from " ++ toString content.length ++ " to "
        ++ toString c2.length ++ " chars (max-chars: " ++ toString m ++ ")"])
    else (content, [])
  | none => (content, [])

/- ## Command registry (`CommandRegistry`) -/

/-- Command metadata (`CommandMetadata` dataclass).  The `max_chars` field
is a natural number: the header parser accepts any integer, but every
configured ceiling is a count of characters. -/
structure CommandMeta where
  description : String
  allowed_tools : Option (List String)
  argument_hint : Option String
  model : Option String
  disable_model_invocation : Bool
  requires_approval : Bool
  approval_message : Option String
  max_chars : Option Nat
deriving DecidableEq

/-- A parsed command (`ParsedCommand` dataclass; the source-file path is
omitted — it only records provenance).  `scope` is the attribute the
loader attaches, read back with a `"user"` default. -/
structure Command where
  name : String
  meta : CommandMeta
  template : String
  nspace : Option String
  scope : String
deriving DecidableEq

/-- `CommandRegistry._make_key`: `namespace:name` when the namespace is
truthy, else the bare name. -/
def make_key (name : String) (ns : Option String) : String :=
  match ns with
  | some s => if s ≠ "" then s ++ ":" ++ name else name
  | none => name

/-- `CommandRegistry.get_command` over the registry mapping. -/
def getCommand (reg : List (String × Command)) (name : String) (ns : Option String) :
    Option Command :=
  reg.lookup (make_key name ns)

/-- Code-point comparison of strings, as Python `sorted` orders them. -/
def charListLe : List Char → List Char → Bool
  | [], _ => true
  | _ :: _, [] => false
  | a :: as, b :: bs =>
    if a.toNat < b.toNat then true
    else if b.toNat < a.toNat then false
    else charListLe as bs

/-- Stable insertion into a sorted list. -/
def insertSorted (s : String) : List String → List String
  | [] => [s]
  | t :: ts => if charListLe s.data t.data then s :: t :: ts else t :: insertSorted s ts

/-- Stable insertion sort (Python `sorted`). -/
def sortStrings : List String → List String
  | [] => []
  | s :: ss => insertSorted s (sortStrings ss)

/-- One display name of `CommandRegistry.get_command_names`. -/
def displayName (c : Command) : String :=
  match c.nspace with
  | some s =>
    if s ≠ "" then c.name ++ " (" ++ c.scope ++ ":" ++ s ++ ")"
    else c.name ++ " (" ++ c.scope ++ ")"
  | none => c.name ++ " (" ++ c.scope ++ ")"

/-- `CommandRegistry.get_command_names`: sorted display names. -/
def get_command_names (reg : List (String × Command)) : List String :=
  sortStrings (reg.map (fun kv => displayName kv.2))

/- ## Composition scanner (`CommandExecutor.COMMAND_PATTERN`) -/

/-- Characters allowed in a command or namespace name: word characters and
hyphens. -/
def isNameChar (c : Char) : Bool := isWordChar c || c = '-'

/-- Emulates the regex tail of the command pattern in MULTILINE mode: an
optional group of one-or-more whitespace followed by a lazy non-empty
argument run, then an end-of-line anchor.  Returns the number of
characters consumed after the name and the matched argument text (empty
when the group is absent).  With text after the whitespace run, the greedy
whitespace and the lazy argument run take the rest of that line; when only
whitespace remains, the engine backtracks to end the argument at the last
non-newline whitespace character; otherwise the anchor must hold
immediately. -/
def cmdTail (rest2 : List Char) : Option (Nat × List Char) :=
  let ws := rest2.takeWhile pyIsSpace
  let rest3 := rest2.drop ws.length
  let atEol : Bool := match rest2 with
    | [] => true
    | c :: _ => c = '\n'
  if ws.isEmpty then (if atEol then some (0, []) else none)
  else if rest3.isEmpty then
    match ws.reverse.dropWhile (fun d => d = '\n') with
    | a :: b :: t => some ((a :: b :: t).length, [a])
    | _ => (if atEol then some (0, []) else none)
  else
    let args := rest3.takeWhile (fun d => d ≠ '\n')
    some (ws.length + args.length, args)

/-- Try to match the command pattern right after a `/`: the name run, an
optional `:namespace` run, then the tail.  Returns the total number of
characters consumed after the slash, the `name` or `name:namespace` text,
and the argument text.  When the namespace run is taken and the tail
fails, the engine retries without it, but that retry always fails on the
leading `:`, so the whole match fails. -/
def tryCommandMatch (cs : List Char) : Option (Nat × List Char × List Char) :=
  let name := cs.takeWhile isNameChar
  if name.isEmpty then none
  else
    let rest1 := cs.drop name.length
    let step2 : List Char × Nat × List Char :=
      match rest1 with
      | ':' :: r =>
        let nsp := r.takeWhile isNameChar
        if nsp.isEmpty then (name, name.length, rest1)
        else (name ++ ':' :: nsp, name.length + 1 + nsp.length, r.drop nsp.length)
      | _ => (name, name.length, rest1)
    match cmdTail step2.2.2 with
    | some tr => some (step2.2.1 + tr.1, step2.1, tr.2)
    | none => none

/-- One match of the command pattern: start offset and length in the
scanned text, the `name[:namespace]` text, and the argument text. -/
structure CmdMatch where
  start : Nat
  len : Nat
  spec : List Char
  args : List Char
deriving DecidableEq

/-- `COMMAND_PATTERN.finditer`: scan left to right; a slash matches only
when the previous character is not `:` or `/`; scanning resumes after each
match. -/
def scanGo : Nat → Option Char → Nat → List Char → List CmdMatch
  | _, _, _, [] => []
  | 0, _, _, _ => []
  | fuel + 1, prev, i, c :: cs =>
    if c = '/' && !(prev = some ':' || prev = some '/') then
      match tryCommandMatch cs with
      | some m =>
        ⟨i, m.1 + 1, m.2.1, m.2.2⟩ ::
          scanGo fuel (some ((c :: cs.take m.1).getLastD c)) (i + m.1 + 1) (cs.drop m.1)
      | none => scanGo fuel (some c) (i + 1) cs
    else scanGo fuel (some c) (i + 1) cs

/-- All matches of `COMMAND_PATTERN` in the content. -/
def scanCommands (l : List Char) : List CmdMatch := scanGo l.length none 0 l

/-- Python `command_spec.split(":", 1)` when a colon is present: the
optional namespace and the command name. -/
def splitSpec (spec : List Char) : Option (List Char) × List Char :=
  if spec.contains ':' then
    let nsp := spec.takeWhile (fun c => c ≠ ':')
    (some nsp, (spec.drop nsp.length).drop 1)
  else (none, spec)

/- ## Executor (`CommandExecutor.execute_full`) -/

/-- The execution environment: the registry mapping and the two external
oracles (bash output per stripped command, filesystem status per token). -/
structure Env where
  reg : List (String × Command)
  bash : String → String
  fs : String → FileStatus

/-- Result of command execution (`ExecutionResult` dataclass). -/
structure ExecutionResult where
  prompt : String
  warnings : Option (List String)
  bash_commands_executed : Nat
  files_included : Nat
  requires_approval : Bool
  approval_message : Option String
  model_override : Option String
deriving DecidableEq

/-- `MAX_COMPOSITION_DEPTH`. -/
def MAX_COMPOSITION_DEPTH : Nat := 5

/-- The `ValueError` text raised when the composition depth is exceeded. -/
def maxDepthMsg : String :=
  "Maximum command composition depth (5) exceeded. Check for circular command references."

/-- The `ValueError` text raised on an unknown command. -/
def notFoundMsg (reg : List (String × Command)) (name : String) : String :=
  "Command \x27/" ++ name ++ "\x27 not found. Available commands: "
    ++ String.intercalate ", " (get_command_names reg)

/-- `CommandExecutor._process_composition`, already iterating over the
reversed match list so that the precomputed offsets stay valid: resolve
each `name[:namespace]`, skip unregistered tokens, execute registered ones
through `exec1` (the executor at depth + 1), splice the nested prompt over
the matched span, and prefix propagated warnings with the originating
token; a raised error is caught and becomes a warning, leaving the token
unexpanded. -/
def compLoop (env : Env)
    (exec1 : String → String → Option String → Except String ExecutionResult) :
    List CmdMatch → List Char → List String → List Char × List String
  | [], result, ws => (result, ws)
  | m :: ms, result, ws =>
    let sp := splitSpec m.spec
    let nsStr : Option String := sp.1.map (fun l => (⟨l⟩ : String))
    match getCommand env.reg ⟨sp.2⟩ nsStr with
    | none => compLoop env exec1 ms result ws
    | some _ =>
      match exec1 ⟨sp.2⟩ (pyStripStr ⟨m.args⟩) nsStr with
      | .ok nr =>
        compLoop env exec1 ms
          (result.take m.start ++ nr.prompt.data ++ result.drop (m.start + m.len))
          (ws ++ (nr.warnings.getD []).map
            (fun w => "[/" ++ (⟨m.spec⟩ : String) ++ "] " ++ w))
      | .error e =>
        compLoop env exec1 ms result
          (ws ++ ["Failed to execute /" ++ (⟨m.spec⟩ : String) ++ ": " ++ e])

/-- `CommandExecutor.execute_full`, indexed by the remaining depth budget
`r = MAX_COMPOSITION_DEPTH + 1 - _depth`; the `r = 0` case is the
`_depth > MAX_COMPOSITION_DEPTH` check, raising (as `Except.error`) the
depth message.  Steps: look up the command, substitute variables, run the
template processor (bash and file references plus warnings) when
`process_advanced`, expand nested commands in reverse match order at
depth + 1 (remaining budget `r - 1`) when `process_advanced`, surface
approval flags, apply the character budget, and assemble the result.
Step 4 of the Python code (`_validate_tool_restrictions`) only logs and
has no effect on the result. -/
def execRem (env : Env) : Nat → String → String → Option String → Bool →
    Except String ExecutionResult
  | 0, _, _, _, _ => .error maxDepthMsg
  | r + 1, name, args, ns, adv =>
    match getCommand env.reg name ns with
    | none => .error (notFoundMsg env.reg name)
    | some cmd =>
      let substituted := substitute_variables cmd.template args
      let p : List Char × Nat × Nat × List String :=
        if adv then
          let pt := process env.bash env.fs substituted.data cmd.meta.allowed_tools true
          (pt.content.data, pt.bash_commands_executed, pt.files_included,
           pt.warnings.getD [])
        else (substituted.data, 0, 0, [])
      let comp : List Char × List String :=
        if adv then
          compLoop env (fun n a s => execRem env r n a s true)
            ((scanCommands p.1).reverse) p.1 []
        else (p.1, [])
      let bs := budgetStep comp.1 cmd.meta.max_chars
      .ok { prompt := ⟨bs.1⟩,
            warnings := warnOpt (p.2.2.2 ++ comp.2 ++ bs.2),
            bash_commands_executed := p.2.1,
            files_included := p.2.2.1,
            requires_approval := cmd.meta.requires_approval,
            approval_message := cmd.meta.approval_message,
            model_override := cmd.meta.model }

/-- `CommandExecutor.execute_full` in terms of the Python `_depth`
parameter (the top-level call uses depth 0). -/
def execute_full (env : Env) (name args : String) (ns : Option String) (adv : Bool)
    (d : Nat) : Except String ExecutionResult :=
  execRem env (MAX_COMPOSITION_DEPTH + 1 - d) name args ns adv

/- ## Claim C3 -/

/-- At depth 5 (remaining budget 1) every nested execution fails with the
depth error, so composition never changes the content. -/
theorem compLoop_depth5_content (env : Env) :
    ∀ (ms : List CmdMatch) (content : List Char) (ws : List String),
      (compLoop env (fun n a s => execRem env 0 n a s true) ms content ws).1 = content
  | [], _, _ => rfl
  | m :: ms, content, ws => by
    unfold compLoop
    cases hc : getCommand env.reg ⟨(splitSpec m.spec).2⟩
        ((splitSpec m.spec).1.map (fun l => (⟨l⟩ : String))) with
    | none =>
      simp only [hc]
      exact compLoop_depth5_content env ms content ws
    | some c =>
      simp only [hc]
      exact compLoop_depth5_content env ms content
        (ws ++ ["Failed to execute /" ++ (⟨m.spec⟩ : String) ++ ": " ++ maxDepthMsg])

/-- The self-referential command `/loop`. -/
def loopCmd : Command :=
  { name := "loop",
    meta := { description := "d", allowed_tools := none, argument_hint := none, model := none,
              disable_model_invocation := false, requires_approval := false,
              approval_message := none, max_chars := none },
    template := "/loop", nspace := none, scope := "user" }

/-- An environment whose only command invokes itself. -/
def loopEnv : Env :=
  ⟨[("loop", loopCmd)], fun _ => "", fun _ => ⟨true, true, false, .error ""⟩⟩

/-- Claim C3: execution above the depth ceiling of 5 fails with the depth
error; at depth 5 every nested call fails, the failure is converted into a
warning and the content is left unchanged; the self-referential command
`/loop` executed from depth 0 terminates with its invocation token left
literally in the prompt and exactly one depth-exceeded warning (prefixed
once per propagation level). -/
theorem C3_depth_ceiling :
    (∀ (env : Env) (n a : String) (ns : Option String) (adv : Bool) (d : Nat),
      MAX_COMPOSITION_DEPTH < d → execute_full env n a ns adv d = .error maxDepthMsg)
    ∧ (∀ (env : Env) (ms : List CmdMatch) (content : List Char) (ws : List String),
      (compLoop env (fun n a s => execRem env 0 n a s true) ms content ws).1 = content)
    ∧ execute_full loopEnv "loop" "" none true 0
        = .ok { prompt := "/loop",
                warnings := some
                  ["[/loop] [/loop] [/loop] [/loop] [/loop] Failed to execute /loop: "
                    ++ maxDepthMsg],
                bash_commands_executed := 0, files_included := 0,
                requires_approval := false, approval_message := none,
                model_override := none } := by
  refine ⟨?_, compLoop_depth5_content, by decide⟩
  intro env n a ns adv d hd
  unfold execute_full
  have h0 : MAX_COMPOSITION_DEPTH + 1 - d = 0 := by
    unfold MAX_COMPOSITION_DEPTH at hd ⊢
    omega
  rw [h0]
  rfl

/-- Witness for C3 just above the ceiling. -/
theorem C3_depth_ceiling_witness :
    MAX_COMPOSITION_DEPTH < 6
    ∧ execute_full loopEnv "loop" "" none true 6 = .error maxDepthMsg :=
  ⟨by decide, C3_depth_ceiling.1 loopEnv "loop" "" none true 6 (by decide)⟩
/- ## Claim C7 -/

theorem rstripWS_length_le (l : List Char) : (rstripWS l).length ≤ l.length := by
  unfold rstripWS
  rw [List.length_reverse]
  calc (l.reverse.dropWhile pyIsSpace).length
      ≤ l.reverse.length := (List.dropWhile_sublist _).length_le
    _ = l.length := List.length_reverse l

theorem trySeps_length_le (t : List Char) (a : Nat) :
    ∀ seps, (trySeps t a seps).length ≤ t.length
  | [] => le_refl _
  | sep :: rest => by
    unfold trySeps
    cases h : pyRfind t sep with
    | none => exact trySeps_length_le t a rest
    | some last =>
      by_cases hc : 10 * last > 7 * a
      · simp only [hc, if_true]
        rw [List.length_take]
        exact Nat.min_le_right _ _
      · simp only [hc, if_false]
        exact trySeps_length_le t a rest

theorem trySeps_prefix (t : List Char) (a : Nat) :
    ∀ seps, trySeps t a seps <+: t
  | [] => List.prefix_refl t
  | sep :: rest => by
    unfold trySeps
    cases h : pyRfind t sep with
    | none => exact trySeps_prefix t a rest
    | some last =>
      by_cases hc : 10 * last > 7 * a
      · simp only [hc, if_true]
        exact List.take_prefix _ t
      · simp only [hc, if_false]
        exact trySeps_prefix t a rest

/-- Claim C7, amended: when content exceeds a non-zero ceiling larger than
the 42-character truncation marker, budgeting cuts the reserved prefix at
a break point, strips trailing whitespace and appends the marker (a suffix
of the result); when the ceiling does not exceed the marker length the
content is hard-cut to exactly the ceiling with no marker; in both cases
the result length is at most the ceiling and the executor step records a
warning naming both lengths. -/
theorem C7_char_budget (content : List Char) (m : Nat) (hlen : m < content.length) :
    (apply_char_budget content m).length ≤ m
    ∧ (TRUNCATION_MSG.length < m →
        apply_char_budget content m
          = rstripWS (trySeps (content.take (m - TRUNCATION_MSG.length))
              (m - TRUNCATION_MSG.length) budgetSeps) ++ TRUNCATION_MSG
        ∧ TRUNCATION_MSG <:+ apply_char_budget content m)
    ∧ (m ≤ TRUNCATION_MSG.length → apply_char_budget content m = content.take m)
    ∧ (m ≠ 0 → budgetStep content (some m)
        = (apply_char_budget content m,
           ["Content truncated from " ++ toString content.length ++ " to "
             ++ toString (apply_char_budget content m).length ++ " chars (max-chars: "
             ++ toString m ++ ")"]))
    ∧ trySeps (content.take (m - TRUNCATION_MSG.length)) (m - TRUNCATION_MSG.length) budgetSeps
        <+: content.take (m - TRUNCATION_MSG.length) := by
  have hnotle : ¬ content.length ≤ m := by omega
  have hmain : TRUNCATION_MSG.length < m →
      apply_char_budget content m
        = rstripWS (trySeps (content.take (m - TRUNCATION_MSG.length))
            (m - TRUNCATION_MSG.length) budgetSeps) ++ TRUNCATION_MSG := by
    intro hm
    unfold apply_char_budget
    rw [if_neg hnotle, if_neg (by omega)]
  refine ⟨?_, fun hm => ⟨hmain hm, ?_⟩, ?_, ?_, trySeps_prefix _ _ _⟩
  · by_cases hm : TRUNCATION_MSG.length < m
    · rw [hmain hm, List.length_append]
      have h1 : (rstripWS (trySeps (content.take (m - TRUNCATION_MSG.length))
          (m - TRUNCATION_MSG.length) budgetSeps)).length
          ≤ m - TRUNCATION_MSG.length := by
        calc _ ≤ (trySeps (content.take (m - TRUNCATION_MSG.length))
                  (m - TRUNCATION_MSG.length) budgetSeps).length := rstripWS_length_le _
          _ ≤ (content.take (m - TRUNCATION_MSG.length)).length := trySeps_length_le _ _ _
          _ ≤ m - TRUNCATION_MSG.length := by rw [List.length_take]; exact Nat.min_le_left _ _
      omega
    · unfold apply_char_budget
      rw [if_neg hnotle, if_pos (by omega)]
      rw [List.length_take]
      exact le_trans (Nat.min_le_left _ _) (le_refl m)
  · rw [hmain hm]
    exact List.suffix_append _ _
  · intro hm
    unfold apply_char_budget
    rw [if_neg hnotle, if_pos hm]
  · intro hm0
    simp only [budgetStep]
    rw [if_pos ⟨hm0, hlen⟩]

/-- Fifty characters of content for the budget examples. -/
def fiftyA : List Char := "aaaaaaaaaaaaaaaaaaaaaaaaaaaaaaaaaaaaaaaaaaaaaaaaaa".data

/-- Counterexample to C7 as stated: with a ceiling of 5 (smaller than the
42-character marker) the code hard-cuts and appends no truncation marker,
while the claim asserts the marker is always appended. -/
theorem C7_counterexample :
    5 < fiftyA.length
    ∧ apply_char_budget fiftyA 5 = "aaaaa".data
    ∧ ¬ TRUNCATION_MSG <:+ apply_char_budget fiftyA 5 := by
  refine ⟨by decide, by decide, by decide⟩

/-- Witness for C7 at a concrete input with a large enough ceiling. -/
theorem C7_char_budget_witness :
    45 < fiftyA.length
    ∧ (apply_char_budget fiftyA 45).length ≤ 45
    ∧ TRUNCATION_MSG.length < 45
    ∧ TRUNCATION_MSG <:+ apply_char_budget fiftyA 45 :=
  ⟨by decide, (C7_char_budget fiftyA 45 (by decide)).1, by decide,
    ((C7_char_budget fiftyA 45 (by decide)).2.1 (by decide)).2⟩
/- ## Claim C8 -/

/-- The command `inner`, whose template runs one inline bash command. -/
def innerCmd : Command :=
  { name := "inner",
    meta := { description := "d", allowed_tools := some ["bash"], argument_hint := none,
              model := none, disable_model_invocation := false, requires_approval := false,
              approval_message := none, max_chars := none },
    template := "!`echo hi`", nspace := none, scope := "user" }

/-- The command `outer`, whose template only invokes `/inner`. -/
def outerCmd : Command :=
  { name := "outer",
    meta := { description := "d", allowed_tools := none, argument_hint := none,
              model := none, disable_model_invocation := false, requires_approval := false,
              approval_message := none, max_chars := none },
    template := "/inner", nspace := none, scope := "user" }

/-- Environment for the count-propagation example. -/
def envC8 : Env :=
  ⟨[("outer", outerCmd), ("inner", innerCmd)],
   fun c => if c = "echo hi" then "HI" else "",
   fun _ => ⟨true, true, false, .error ""⟩⟩

/-- Counterexample to C8 as stated: `/outer` renders `/inner`, whose own
execution runs one bash command (its result reports it), yet the outer
result reports zero bash executions — nested counts are discarded, not
summed. -/
theorem C8_counterexample :
    execute_full envC8 "outer" "" none true 0
      = .ok { prompt := "HI", warnings := none, bash_commands_executed := 0,
              files_included := 0, requires_approval := false, approval_message := none,
              model_override := none }
    ∧ execute_full envC8 "inner" "" none true 1
      = .ok { prompt := "HI", warnings := none, bash_commands_executed := 1,
              files_included := 0, requires_approval := false, approval_message := none,
              model_override := none } := by
  constructor
  · decide
  · decide

/-- Claim C8, amended: the `bash_commands_executed` and `files_included`
fields of the returned result equal the counts of the top-level template
processing pass alone; counts from nested invocations are not added. -/
theorem C8_counts_top_level_only (env : Env) (n a : String) (ns : Option String)
    (d : Nat) (cmd : Command) (hd : d ≤ MAX_COMPOSITION_DEPTH)
    (hc : getCommand env.reg n ns = some cmd) :
    (execute_full env n a ns true d).map
        (fun res => (res.bash_commands_executed, res.files_included))
      = .ok ((process env.bash env.fs (substitute_variables cmd.template a).data
                cmd.meta.allowed_tools true).bash_commands_executed,
             (process env.bash env.fs (substitute_variables cmd.template a).data
                cmd.meta.allowed_tools true).files_included) := by
  unfold execute_full
  obtain ⟨r, hr⟩ : ∃ r, MAX_COMPOSITION_DEPTH + 1 - d = r + 1 :=
    ⟨MAX_COMPOSITION_DEPTH - d, by unfold MAX_COMPOSITION_DEPTH at hd ⊢; omega⟩
  rw [hr]
  simp only [execRem, hc]
  rfl

/-- Witness for C8 at the concrete environment. -/
theorem C8_counts_top_level_only_witness :
    (0 ≤ MAX_COMPOSITION_DEPTH ∧ getCommand envC8.reg "outer" none = some outerCmd)
    ∧ (execute_full envC8 "outer" "" none true 0).map
        (fun res => (res.bash_commands_executed, res.files_included))
      = .ok ((process envC8.bash envC8.fs
                (substitute_variables outerCmd.template "").data
                outerCmd.meta.allowed_tools true).bash_commands_executed,
             (process envC8.bash envC8.fs
                (substitute_variables outerCmd.template "").data
                outerCmd.meta.allowed_tools true).files_included) :=
  ⟨⟨by decide, by decide⟩,
   C8_counts_top_level_only envC8 "outer" "" none 0 outerCmd (by decide) (by decide)⟩
/- ## Claim C9 -/

theorem budgetStep_noop {content : List Char} {mc : Option Nat}
    (h : match mc with | some m => m = 0 ∨ content.length ≤ m | none => True) :
    budgetStep content mc = (content, []) := by
  cases mc with
  | none => rfl
  | some m =>
    simp only [budgetStep]
    rw [if_neg]
    rintro ⟨hm0, hlt⟩
    rcases h with h | h
    · exact hm0 h
    · omega

/-- Claim C9, amended: with `process_advanced = false` the result is the
variable-substituted template with only the character-budget step applied
— no shell execution, no file inclusion, no nested expansion, both
counters zero; when no non-zero ceiling smaller than the content is
configured, the prompt equals the substitution result exactly and there
are no warnings. -/
theorem C9_basic_mode (env : Env) (n a : String) (ns : Option String) (d : Nat)
    (cmd : Command) (hd : d ≤ MAX_COMPOSITION_DEPTH)
    (hc : getCommand env.reg n ns = some cmd) :
    execute_full env n a ns false d
      = .ok { prompt :=
                ⟨(budgetStep (substitute_variables cmd.template a).data cmd.meta.max_chars).1⟩,
              warnings :=
                warnOpt (budgetStep (substitute_variables cmd.template a).data
                  cmd.meta.max_chars).2,
              bash_commands_executed := 0, files_included := 0,
              requires_approval := cmd.meta.requires_approval,
              approval_message := cmd.meta.approval_message,
              model_override := cmd.meta.model }
    ∧ ((match cmd.meta.max_chars with
          | some m => m = 0 ∨ (substitute_variables cmd.template a).data.length ≤ m
          | none => True) →
        execute_full env n a ns false d
          = .ok { prompt := substitute_variables cmd.template a, warnings := none,
                  bash_commands_executed := 0, files_included := 0,
                  requires_approval := cmd.meta.requires_approval,
                  approval_message := cmd.meta.approval_message,
                  model_override := cmd.meta.model }) := by
  have hpart1 : execute_full env n a ns false d
      = .ok { prompt :=
                ⟨(budgetStep (substitute_variables cmd.template a).data cmd.meta.max_chars).1⟩,
              warnings :=
                warnOpt (budgetStep (substitute_variables cmd.template a).data
                  cmd.meta.max_chars).2,
              bash_commands_executed := 0, files_included := 0,
              requires_approval := cmd.meta.requires_approval,
              approval_message := cmd.meta.approval_message,
              model_override := cmd.meta.model } := by
    unfold execute_full
    obtain ⟨r, hr⟩ : ∃ r, MAX_COMPOSITION_DEPTH + 1 - d = r + 1 :=
      ⟨MAX_COMPOSITION_DEPTH - d, by unfold MAX_COMPOSITION_DEPTH at hd ⊢; omega⟩
    rw [hr]
    simp only [execRem, hc]
    rfl
  refine ⟨hpart1, fun hnb => ?_⟩
  rw [hpart1, budgetStep_noop hnb]
  rfl

/-- The command whose 50-character template exceeds its 45-character
ceiling. -/
def budget50Cmd : Command :=
  { name := "c",
    meta := { description := "d", allowed_tools := none, argument_hint := none,
              model := none, disable_model_invocation := false, requires_approval := false,
              approval_message := none, max_chars := some 45 },
    template := "aaaaaaaaaaaaaaaaaaaaaaaaaaaaaaaaaaaaaaaaaaaaaaaaaa", nspace := none,
    scope := "user" }

/-- Environment for the basic-mode budget example. -/
def env9 : Env := ⟨[("c", budget50Cmd)], fun _ => "", fun _ => ⟨true, true, false, .error ""⟩⟩

/-- Counterexample to C9 as stated: with `process_advanced = false` but a
configured ceiling below the content length, the prompt is the truncated
text, not the variable-substituted template, and a truncation warning is
attached. -/
theorem C9_counterexample :
    (execute_full env9 "c" "" none false 0).map ExecutionResult.prompt
      ≠ .ok (substitute_variables budget50Cmd.template "")
    ∧ (execute_full env9 "c" "" none false 0).map ExecutionResult.warnings ≠ .ok none := by
  constructor
  · decide
  · decide

/-- Witness for C9 at a concrete command with no ceiling. -/
theorem C9_basic_mode_witness :
    (0 ≤ MAX_COMPOSITION_DEPTH ∧ getCommand loopEnv.reg "loop" none = some loopCmd)
    ∧ execute_full loopEnv "loop" "" none false 0
      = .ok { prompt := substitute_variables loopCmd.template "", warnings := none,
              bash_commands_executed := 0, files_included := 0,
              requires_approval := loopCmd.meta.requires_approval,
              approval_message := loopCmd.meta.approval_message,
              model_override := loopCmd.meta.model } :=
  ⟨⟨by decide, by decide⟩,
   (C9_basic_mode loopEnv "loop" "" none 0 loopCmd (by decide) (by decide)).2 (by trivial)⟩

/- ## Claim C10 -/

theorem warnOpt_shape (ws : List String) :
    warnOpt ws ≠ some [] ∧ (warnOpt ws = none ∨ ∃ w t, warnOpt ws = some (w :: t)) := by
  cases ws with
  | nil => simp [warnOpt]
  | cons w t => simp [warnOpt]

theorem execRem_warnings_shape (env : Env) (r : Nat) (n a : String) (ns : Option String)
    (adv : Bool) (res : ExecutionResult) (h : execRem env r n a ns adv = .ok res) :
    ∃ ws, res.warnings = warnOpt ws := by
  match r with
  | 0 => simp [execRem] at h
  | r' + 1 =>
    unfold execRem at h
    cases hc : getCommand env.reg n ns with
    | none =>
      rw [hc] at h
      exact absurd h (by simp)
    | some cmd =>
      rw [hc] at h
      simp only [Except.ok.injEq] at h
      exact ⟨_, by rw [← h]⟩

/-- Claim C10: the warnings field of every execution result and of every
processed template is the absent value when no warnings were produced and
a non-empty list otherwise; it is never the empty list. -/
theorem C10_warnings_never_empty (env : Env) (n a : String) (ns : Option String)
    (adv : Bool) (d : Nat) (res : ExecutionResult)
    (bash : String → String) (fs : String → FileStatus) (t : List Char)
    (tools : Option (List String)) (incf : Bool) :
    (execute_full env n a ns adv d = .ok res →
      res.warnings ≠ some []
      ∧ (res.warnings = none ∨ ∃ w ws, res.warnings = some (w :: ws)))
    ∧ (process bash fs t tools incf).warnings ≠ some []
    ∧ ((process bash fs t tools incf).warnings = none
       ∨ ∃ w ws, (process bash fs t tools incf).warnings = some (w :: ws)) := by
  refine ⟨fun h => ?_, (warnOpt_shape _).1, (warnOpt_shape _).2⟩
  obtain ⟨ws, hws⟩ := execRem_warnings_shape env _ n a ns adv res h
  rw [hws]
  exact warnOpt_shape ws

/-- Witness for C10 at the self-loop execution. -/
theorem C10_warnings_never_empty_witness :
    (execute_full loopEnv "loop" "" none true 0).isOk = true
    ∧ ∀ res, execute_full loopEnv "loop" "" none true 0 = .ok res →
        res.warnings ≠ some [] := by
  refine ⟨by decide, fun res h => ?_⟩
  exact ((C10_warnings_never_empty loopEnv "loop" "" none true 0 res
    (fun _ => "") (fun _ => ⟨true, true, false, .error ""⟩) [] none false).1 h).1

end SlashCmd
